import Mathlib

/-!
Verification of the recursive lossless text compressor in `main.py`
(class `LosslessCompressor`).

Python strings are modelled as lists of Unicode code points (`Str := List Nat`),
which matches Python's string semantics exactly (a `str` is a sequence of code
points, with clamping slices).  The lookup dictionary is modelled as an
insertion-ordered association list, which matches Python's `dict` iteration
order.  Floating point percentages are modelled over `ℚ`; all comparisons the
program performs on them (`< 0`, `<=`) are between quotients with a common
denominator, so the rational model agrees with the float computation whenever
the float computation does not overflow.  File I/O is out of scope: the
compressor core is modelled as a function from the file's text to the saved
artifact, and the decompressor as a function from the artifact text (plus the
path, whose extension is checked) to the restored text.  Python exceptions
(`ZeroDivisionError`, `IndexError`, `ValueError`) are modelled with `Except`.
-/

namespace LLC

/-- A Python string: a sequence of Unicode code points. -/
abbrev Str := List Nat

/-- The insertion-ordered lookup dictionary built by `compress`
(key code point, replaced chunk); `main.py` line 99 `prev_lookup: dict`. -/
abbrev Lookup := List (Nat × Str)

/-- `self.text_delimeter = chr(0)` (`main.py` line 33). -/
def textDelimeter : Nat := 0

/-- `self.lookup_delimeter = chr(1)` (`main.py` line 34). -/
def lookupDelimeter : Nat := 1

/-- `self.lookup_key_prefixes = (chr(2), chr(1114111))` (`main.py` line 35). -/
def lookupKeyPrefixes : Nat × Nat := (2, 1114111)

/-- Number of bytes of the UTF-8 encoding of one code point
(used for `len(text.encode())`). -/
def utf8Len (c : Nat) : Nat :=
  if c < 128 then 1 else if c < 2048 then 2 else if c < 65536 then 3 else 4

/-- `len(s.encode())`: UTF-8 byte length of a Python string. -/
def byteLen (s : Str) : Nat := (s.map utf8Len).sum

/-- `len(s)`: number of characters of a Python string. -/
def charLen (s : Str) : Nat := s.length

/-- Python slice `s[i : i + n]` (clamped at the end of the string). -/
def slice (s : Str) (i n : Nat) : Str := (s.drop i).take n

/-- Python `s.split(chr(d))` for a single-character separator: splits at every
occurrence, keeping empty parts; always returns at least one part. -/
def splitOnChar (d : Nat) : Str → List Str
  | [] => [[]]
  | c :: rest =>
    match splitOnChar d rest with
    | [] => [[]]
    | p :: ps => if c = d then [] :: p :: ps else (c :: p) :: ps

/-- One step of Python `s.replace(old, new)` with a nonempty `old`, driven by
explicit fuel (one unit per character consumed); `replaceAll` supplies enough
fuel, so the fuel-exhausted branch is never reached for the actual calls. -/
def replaceAllFuel (pat rep : Str) : Nat → Str → Str
  | 0, s => s
  | _ + 1, [] => []
  | fuel + 1, c :: rest =>
    if pat ≠ [] ∧ pat.isPrefixOf (c :: rest) then
      rep ++ replaceAllFuel pat rep fuel ((c :: rest).drop pat.length)
    else c :: replaceAllFuel pat rep fuel rest

/-- Python `s.replace(pat, rep)`: replace every leftmost non-overlapping
occurrence of `pat` in `s` by `rep`.  Every call in `main.py` has a nonempty
`pat` (chunks have length ≥ 2 and symbols length ≥ 1), which the definition
assumes (for `pat = []` it returns `s` unchanged). -/
def replaceAll (pat rep s : Str) : Str := replaceAllFuel pat rep s.length s

/-- Python `d[k] = v` on an insertion-ordered `dict`: update in place if the
key is present (keeping its position), otherwise append at the end. -/
def dictInsert {κ : Type} [BEq κ] (l : List (κ × Str)) (k : κ) (v : Str) :
    List (κ × Str) :=
  if l.any (fun kv => kv.1 == k) then
    l.map (fun kv => if kv.1 == k then (kv.1, v) else kv)
  else l ++ [(k, v)]

/-- `gen_output` (`main.py` lines 57-74): serialize the lookup dictionary
(entries `key ++ chunk` joined by `chr(1)`), then `chr(0)` if the dictionary is
nonempty, then the text. -/
def gen_output (text : Str) (lookup : Lookup) : Str :=
  let lookupOutput := List.intercalate [lookupDelimeter] (lookup.map (fun kv => kv.1 :: kv.2))
  lookupOutput ++ (if lookup.isEmpty then [] else [textDelimeter]) ++ text

/-- `gen_hash_table` (`main.py` lines 76-97) builds a `defaultdict` from every
length-`chunkLen` chunk to the ascending list of its start indexes; this
definition is the table looked up at one chunk, `hash_table.get(chunk, [])`
(`main.py` line 126): indexes are appended for `i` in
`range(len(text) - chunk_len + 1)` in ascending order, so the stored list is
exactly the ascending filter of that range.  Python's `range` of a negative
bound is empty, hence the computation over `Int` before `toNat`. -/
def gen_hash_table (text : Str) (chunkLen : Nat) (chunk : Str) : List Nat :=
  (List.range ((text.length : Int) - chunkLen + 1).toNat).filter
    (fun i => slice text i chunkLen == chunk)

/-- The numeric code point of a fresh lookup key (`main.py` line 130):
`ord(lookup_key_prefix) + 1 + len(lookup)` when `mode = 0`, else
`ord(lookup_key_prefix) - len(lookup)`, as an integer (Python's `chr` would
reject a value outside `[0, 1114111]`, which cannot occur while the dictionary
is smaller than the reserved region). -/
def keyCode (mode count : Nat) : Int :=
  if mode = 0 then (lookupKeyPrefixes.1 : Int) + 1 + count
  else (lookupKeyPrefixes.2 : Int) - count

/-- The filter applied to the surviving duplicate indexes when the candidate
chunk is extended from length `tempLen` to `tempLen + 1` (`main.py` lines
139-140): keep the offsets whose slice of the new length equals the anchor's
slice `temp_chunk = text[chunk_index : chunk_index + temp_len]`. -/
def stepFilter (text : Str) (ci tempLen : Nat) (dups : List Nat) : List Nat :=
  dups.filter (fun i => slice text i (tempLen + 1) == slice text ci (tempLen + 1))

/-- The `while more:` match-extension loop (`main.py` lines 132-145), driven by
explicit fuel.  State: current `temp_len`, surviving `duplicate_indexes`, the
last accepted `chunk`, and `prev_same_count` (initially `0` at the call site,
line 134).  Each iteration extends the length by one, refilters the survivors,
and accepts the longer chunk iff the surviving count is `≥ prev_same_count`
and nonempty; on rejection the loop stops and the last accepted chunk is
returned.  The loop provably stops within `text.length + 2` iterations (two
distinct offsets cannot have equal clamped slices once the slices reach the end
of the text), which is the fuel passed by `scanLoop`. -/
def extendLoop (text : Str) (ci : Nat) : Nat → Nat → List Nat → Str → Nat → Str
  | 0, _, _, chunk, _ => chunk
  | fuel + 1, tempLen, dups, chunk, prevSameCount =>
    if prevSameCount ≤ (stepFilter text ci tempLen dups).length ∧
        stepFilter text ci tempLen dups ≠ [] then
      extendLoop text ci fuel (tempLen + 1) (stepFilter text ci tempLen dups)
        (slice text ci (tempLen + 1)) (stepFilter text ci tempLen dups).length
    else chunk

/-- The match-extension rule as claim C5 states it: identical loop, but the
count "at the previous length" starts as the base chunk's own duplicate count
`dups.length`, not `0`.  Spec §4.3: "Continue while the surviving duplicate
count is greater than or equal to the count at the previous length". -/
def extendChunkClaimed (text : Str) (ci fuel tempLen : Nat) (dups : List Nat)
    (chunk : Str) : Str :=
  extendLoop text ci fuel tempLen dups chunk dups.length

/-- The survivors of the base duplicate set at extension length `n`: the
offsets whose length-`n` slice equals the anchor's length-`n` slice. -/
def survivors (text : Str) (ci : Nat) (dups0 : List Nat) (n : Nat) : List Nat :=
  dups0.filter (fun i => slice text i n == slice text ci n)

/-- `percentage_change` (`main.py` lines 391-407): percentage decrease
(`mode = 0`) or increase (`mode ≠ 0`) from `original` to `new`.  Python raises
`ZeroDivisionError` when `original == 0`; the callers that can reach a zero
denominator are modelled with an explicit check (`compressOp`). -/
def percentage_change (mode : Nat) (original new : ℚ) : ℚ :=
  (if mode ≠ 0 then new - original else original - new) / original * 100

/-- `output_size = (len(output.encode()), len(output))[mode]`
(`main.py` line 152): the would-be artifact's size in the mode's unit. -/
def stepOutputSize (mode : Nat) (output : Str) : Nat :=
  if mode = 0 then byteLen output else charLen output

/-- The compression percentage computed at each substitution step (`main.py`
line 153): `percentage_change(mode = 0, original = input_size, new =
output_size)`, where `input_size` is the byte length of the original input
(line 185) independent of the mode. -/
def stepPercent (mode inputSize : Nat) (output : Str) : ℚ :=
  percentage_change 0 inputSize (stepOutputSize mode output)

/-- The Decision step (`main.py` lines 169-170).  `prev` is the
pre-substitution `(prev_text, prev_lookup)`, `cur` the stop-here candidate
`(text, lookup)` after this substitution, `nxt` the recursed candidate
`(text_next, lookup_next)`.  If both percentages are negative, return `prev`;
otherwise, if the updated dictionary is nonempty (always true at this point,
since the key was just inserted), return `nxt` when
`percent_compression <= percent_compression_next` (Python tuple indexing by the
boolean) else `cur`.  `none` encodes the dead fall-through in which the `for`
loop would continue scanning. -/
def decisionStep (pc pcNext : ℚ) (prev cur nxt : Str × Lookup) :
    Option (Str × Lookup) :=
  if pc < 0 ∧ pcNext < 0 then some prev
  else if cur.2 ≠ [] then some (if pc ≤ pcNext then nxt else cur) else none

/-- The `for chunk_index in range(...)` scan of the inner `compress`
(`main.py` lines 123-172).  `recur` is the recursive call to the inner
`compress` with one unit of fuel less; `text0` is the invocation's initial
text, from which `hash_table` was built; `prev` is the invocation's
`(prev_text, prev_lookup)`.  At the first index whose chunk has duplicates the
loop allocates a key, extends the chunk, records it, substitutes it, recurses,
and applies the Decision step; in the (unreachable) fall-through it continues
the scan with the mutated text and lookup, as the Python loop would. -/
def scanLoop (mode inputSize : Nat) (recur : Str → Lookup → Str × Lookup)
    (text0 : Str) (chunkLen : Nat) (prev : Str × Lookup) :
    List Nat → Str → Lookup → Str × Lookup
  | [], _, _ => prev
  | ci :: rest, text, lookup =>
    let chunk := slice text ci chunkLen
    let dups := (gen_hash_table text0 chunkLen chunk).filter (fun i => i != ci)
    if dups.isEmpty then
      scanLoop mode inputSize recur text0 chunkLen prev rest text lookup
    else
      let key := (keyCode mode lookup.length).toNat
      let chunk2 := extendLoop text ci (text.length + 2) chunkLen dups chunk 0
      let lookup2 := dictInsert lookup key chunk2
      let sym := if mode = 0 then [lookupKeyPrefixes.1, key] else [key]
      let text2 := replaceAll chunk2 sym text
      let pc := stepPercent mode inputSize (gen_output text2 lookup2)
      let nextPair := recur text2 lookup2
      let pcNext := stepPercent mode inputSize (gen_output nextPair.1 nextPair.2)
      match decisionStep pc pcNext prev (text2, lookup2) nextPair with
      | some r => r
      | none => scanLoop mode inputSize recur text0 chunkLen prev rest text2 lookup2

/-- The inner recursive `compress` (`main.py` lines 99-172), with explicit
fuel for the recursion depth (each substitution strictly shrinks the text, so
depth is bounded by the text length; Python instead grows its recursion limit
on demand, lines 156-161).  `chunk_len = (3, 2)[mode]` (line 120); the scan
range is `range(len(text) - chunk_len + 1)` (line 123), empty when the bound
is nonpositive. -/
def compressInner (mode inputSize : Nat) : Nat → Str → Lookup → Str × Lookup
  | 0, prevText, prevLookup => (prevText, prevLookup)
  | fuel + 1, prevText, prevLookup =>
    let chunkLen := if mode = 0 then 3 else 2
    scanLoop mode inputSize (compressInner mode inputSize fuel) prevText chunkLen
      (prevText, prevLookup)
      (List.range ((prevText.length : Int) - chunkLen + 1).toNat) prevText prevLookup

/-- The Python exceptions the modelled operations can raise. -/
inductive Err : Type
  /-- `ZeroDivisionError` at the lookup-percentage computation
  (`main.py` line 198). -/
  | divZeroLookupPct
  /-- `ZeroDivisionError` inside `percentage_change` (`main.py` line 407),
  reached from lines 201-202. -/
  | divZeroPctChange
  /-- `IndexError` from `x[0]` on an empty dictionary entry
  (`main.py` line 271). -/
  | indexError
  /-- `ValueError` for a path without the `.llc` extension
  (`main.py` line 302). -/
  | valueErrorNotLlc
deriving DecidableEq

/-- `LosslessCompressor.compress` (`main.py` lines 37-231) as a function from
the input file's text to the saved artifact.  After the compression proper it
computes the printed statistics in source order: the lookup percentage
(line 198, dividing by the artifact size in the mode's unit — Python's first
possible `ZeroDivisionError`) and then the byte and character compression
percentages (lines 201-202, dividing by the input sizes inside
`percentage_change`).  The artifact is saved (line 204) after those
computations, so an exception in them prevents any output. -/
def compressOp (inputText : Str) (mode : Nat) : Except Err Str :=
  let inputLen := charLen inputText
  let inputSize := byteLen inputText
  let result := compressInner mode inputSize (inputText.length + 1) inputText []
  let outputText := gen_output result.1 result.2
  let outputLen := charLen outputText
  let outputSize := byteLen outputText
  if (if mode = 0 then outputSize else outputLen) = 0 then
    Except.error Err.divZeroLookupPct
  else if inputSize = 0 then Except.error Err.divZeroPctChange
  else if inputLen = 0 then Except.error Err.divZeroPctChange
  else Except.ok outputText

/-- The `mode = 1` dictionary comprehension of `extract_input` (`main.py`
line 271): `{x[0]: x[1:] for x in entries}`, left to right with Python `dict`
update semantics; `x[0]` on an empty entry raises `IndexError`. -/
def buildLookupChars : List Str → List (Str × Str) → Except Err (List (Str × Str))
  | [], acc => Except.ok acc
  | [] :: _, _ => Except.error Err.indexError
  | (c :: cs) :: rest, acc => buildLookupChars rest (dictInsert acc [c] cs)

/-- The `mode = 0` dictionary comprehension of `extract_input` (`main.py`
line 272): `{x[0:1]: x[1:] for x in entries}`; `x[0:1]` is an empty string for
an empty entry, so no exception is possible. -/
def buildLookupBytes (entries : List Str) : List (Str × Str) :=
  entries.foldl (fun acc x => dictInsert acc (x.take 1) (x.drop 1)) []

/-- `extract_input` (`main.py` lines 251-275): infer the mode from whether the
`chr(2)` prefix occurs in the input, split the input on `chr(0)`, parse the
first part as the dictionary (entries split on `chr(1)`), and join the
remaining parts with a newline as the body text. -/
def extract_input (input : Str) : Except Err (Str × List (Str × Str) × Nat) :=
  let mode := if input.contains lookupKeyPrefixes.1 then 0 else 1
  let parts := splitOnChar textDelimeter input
  let entries := splitOnChar lookupDelimeter parts.headI
  let text := List.intercalate [10] parts.tail
  if mode = 1 then
    match buildLookupChars entries [] with
    | Except.error e => Except.error e
    | Except.ok lookup => Except.ok (text, lookup, mode)
  else Except.ok (text, buildLookupBytes entries, mode)

/-- The inner `uncompress` (`main.py` lines 277-298): walk the lookup entries
in reverse insertion order and replace each symbol (prefixed two-character form
in mode 0, the bare key in mode 1) by its chunk. -/
def uncompress_inner (text : Str) (lookup : List (Str × Str)) (mode : Nat) : Str :=
  lookup.reverse.foldl
    (fun t kv =>
      let symbol := if mode = 0 then lookupKeyPrefixes.1 :: kv.1 else kv.1
      replaceAll symbol kv.2 t) text

/-- Decoding an artifact: `extract_input` followed by the inner `uncompress`
(`main.py` lines 317-318). -/
def decodeOp (input : Str) : Except Err Str :=
  match extract_input input with
  | Except.error e => Except.error e
  | Except.ok (text, lookup, mode) => Except.ok (uncompress_inner text lookup mode)

/-- `os.path.basename` on a POSIX path: the part after the last `/`. -/
def basenameOf (p : Str) : Str := (p.reverse.takeWhile (fun c => c != 47)).reverse

/-- Helper for `os.path.splitext`, working on the reversed basename: split at
the first `.` (code 46) of the reversed string, i.e. the last `.` of the
basename, returning (reversed extension including the dot, reversed stem). -/
def extRev : Str → Option (Str × Str)
  | [] => none
  | c :: rest =>
    if c = 46 then some ([c], rest)
    else
      match extRev rest with
      | none => none
      | some (e, p) => some (c :: e, p)

/-- `os.path.splitext(b)[1]` for a basename `b` (no separators): the extension
starts at the last dot, and is empty unless some character strictly before that
dot is not itself a dot (CPython skips leading dots of the filename). -/
def splitextExt (b : Str) : Str :=
  match extRev b.reverse with
  | none => []
  | some (e, p) => if p.any (fun c => c != 46) then e.reverse else []

/-- The code points of the string `".llc"`. -/
def llcExt : Str := [46, 108, 108, 99]

/-- `LosslessCompressor.uncompress` (`main.py` lines 233-349) as a function of
the path and the file's contents: the `.llc` extension check (line 302) raises
`ValueError` before the file is read, so a failing path yields the error
independently of the contents; otherwise the contents are decoded. -/
def uncompressOp (path contents : Str) : Except Err Str :=
  if splitextExt (basenameOf path) ≠ llcExt then Except.error Err.valueErrorNotLlc
  else decodeOp contents


/-! ## Helper lemmas -/

/-- Unfolding of one iteration of the match-extension loop. -/
theorem extendLoop_succ (text : Str) (ci fuel tempLen prevSameCount : Nat)
    (dups : List Nat) (chunk : Str) :
    extendLoop text ci (fuel + 1) tempLen dups chunk prevSameCount =
      if prevSameCount ≤ (stepFilter text ci tempLen dups).length ∧
          stepFilter text ci tempLen dups ≠ [] then
        extendLoop text ci fuel (tempLen + 1) (stepFilter text ci tempLen dups)
          (slice text ci (tempLen + 1)) (stepFilter text ci tempLen dups).length
      else chunk := rfl

/-- Slices that agree at length `n + 1` agree at length `n`. -/
theorem slice_eq_of_slice_succ_eq {text : Str} {i ci n : Nat}
    (h : slice text i (n + 1) = slice text ci (n + 1)) :
    slice text i n = slice text ci n := by
  have h1 := congrArg (List.take n) h
  simpa [slice, List.take_take, Nat.min_eq_left (Nat.le_succ n)] using h1

/-- Refiltering the length-`n` survivors at length `n + 1` gives the
length-`(n + 1)` survivors of the original duplicate set. -/
theorem stepFilter_survivors (text : Str) (ci n : Nat) (dups0 : List Nat) :
    stepFilter text ci n (survivors text ci dups0 n) = survivors text ci dups0 (n + 1) := by
  unfold stepFilter survivors
  rw [List.filter_filter]
  apply List.filter_congr
  intro i _
  by_cases h : slice text i (n + 1) = slice text ci (n + 1)
  · have h2 : slice text i n = slice text ci n := slice_eq_of_slice_succ_eq h
    simp [h, h2]
  · simp [h]

/-- Loop invariant for the match extender: once the loop is at length `n` with
the survivors at `n` and their count as the previous count, and the survivor
count is constant on `(L, M]` but drops at `M + 1`, the loop returns the
anchor's length-`M` slice. -/
theorem extendLoop_surv_aux (text : Str) (ci L M : Nat) (dups0 : List Nat)
    (hstreak : ∀ n, L < n → n ≤ M →
      (survivors text ci dups0 n).length = (survivors text ci dups0 (L + 1)).length)
    (hstop : (survivors text ci dups0 (M + 1)).length <
      (survivors text ci dups0 (L + 1)).length) :
    ∀ fuel n, L + 1 ≤ n → n ≤ M → M + 1 ≤ n + fuel →
      extendLoop text ci fuel n (survivors text ci dups0 n) (slice text ci n)
        ((survivors text ci dups0 n).length) = slice text ci M := by
  intro fuel
  induction fuel with
  | zero => intro n h1 h2 h3; omega
  | succ fuel ih =>
    intro n h1 h2 h3
    rw [extendLoop_succ, stepFilter_survivors]
    by_cases hnM : n = M
    · subst hnM
      have hnc : ¬((survivors text ci dups0 n).length ≤
          (survivors text ci dups0 (n + 1)).length ∧
          survivors text ci dups0 (n + 1) ≠ []) := by
        rintro ⟨hle, -⟩
        have hM2 := hstreak n (by omega) (by omega)
        omega
      rw [if_neg hnc]
    · have hb := hstreak (n + 1) (by omega) (by omega)
      have hc : ((survivors text ci dups0 n).length ≤
          (survivors text ci dups0 (n + 1)).length ∧
          survivors text ci dups0 (n + 1) ≠ []) := by
        constructor
        · have ha := hstreak n (by omega) (by omega)
          omega
        · have hpos : 0 < (survivors text ci dups0 (n + 1)).length := by omega
          exact List.length_pos.mp hpos
      rw [if_pos hc]
      exact ih (n + 1) (by omega) (by omega) (by omega)

/-- `any` is invariant under reversal. -/
theorem any_reverse_eq (l : List Nat) (p : Nat → Bool) : l.reverse.any p = l.any p := by
  rw [Bool.eq_iff_iff]
  simp [List.any_eq_true]

/-- A successful `extRev` decomposes its input. -/
theorem extRev_eq_append : ∀ {r e p : Str}, extRev r = some (e, p) → r = e ++ p := by
  intro r
  induction r with
  | nil => intro e p h; simp [extRev] at h
  | cons c rest ih =>
    intro e p h
    simp only [extRev] at h
    split at h
    · simp only [Option.some.injEq, Prod.mk.injEq] at h
      obtain ⟨rfl, rfl⟩ := h
      rfl
    · split at h
      · exact Option.noConfusion h
      · next e1 p1 heq =>
          simp only [Option.some.injEq, Prod.mk.injEq] at h
          obtain ⟨rfl, rfl⟩ := h
          rw [ih heq]
          rfl

/-! ## Claim theorems -/

/-- C1 (code bug): the claimed round-trip `decode(encode(compress(T, M))) = T`
fails on the code for an input with no repeated chunks even though the input
contains none of the reserved control or private-alphabet characters.  For
`T = "qwerty"` compression leaves the text unchanged with an empty dictionary
(so the artifact equals `T`), but decoding that artifact yields the empty
string: `extract_input` treats the terminator-less artifact as a
dictionary-only document, fabricates the entry `{"q": "werty"}` and leaves an
empty body text. -/
theorem c1_roundtrip_code_bug :
    ([113, 119, 101, 114, 116, 121] : Str).contains 0 = false
  ∧ ([113, 119, 101, 114, 116, 121] : Str).contains 1 = false
  ∧ ([113, 119, 101, 114, 116, 121] : Str).contains 2 = false
  ∧ ([113, 119, 101, 114, 116, 121] : Str).all (fun c => decide (c < 1000)) = true
  ∧ compressOp [113, 119, 101, 114, 116, 121] 0 = Except.ok [113, 119, 101, 114, 116, 121]
  ∧ compressOp [113, 119, 101, 114, 116, 121] 1 = Except.ok [113, 119, 101, 114, 116, 121]
  ∧ decodeOp [113, 119, 101, 114, 116, 121] = Except.ok []
  ∧ ([] : Str) ≠ [113, 119, 101, 114, 116, 121] :=
  ⟨rfl, rfl, rfl, rfl, rfl, rfl, rfl, by decide⟩

/-- C2 (code bug): for `T = "abcdefg"` (no repeated substrings of the base
chunk length) compression does return an empty dictionary and unchanged text,
and the artifact is exactly `T` (no dictionary section, no terminator) — but
decoding that artifact returns the empty string, not `T`, for the same
`extract_input` defect as in C1, so encode and decode are not symmetric on the
empty-dictionary case. -/
theorem c2_scenario_b_code_bug :
    compressInner 0 (byteLen [97, 98, 99, 100, 101, 102, 103]) 8
        [97, 98, 99, 100, 101, 102, 103] []
      = ([97, 98, 99, 100, 101, 102, 103], [])
  ∧ gen_output [97, 98, 99, 100, 101, 102, 103] [] = [97, 98, 99, 100, 101, 102, 103]
  ∧ compressOp [97, 98, 99, 100, 101, 102, 103] 0
      = Except.ok [97, 98, 99, 100, 101, 102, 103]
  ∧ decodeOp [97, 98, 99, 100, 101, 102, 103] = Except.ok []
  ∧ ([] : Str) ≠ [97, 98, 99, 100, 101, 102, 103] :=
  ⟨rfl, rfl, rfl, rfl, by decide⟩

/-- C3 (counterexample): at a tie (`percent_compression =
percent_compression_next = 0`, neither a net increase) with a nonempty
dictionary, the Decision step returns the recursed candidate, not the
stop-here candidate the claim prescribes. -/
theorem c3_tie_counterexample :
    decisionStep 0 0 ([], []) ([97], [(3, [98])]) ([99], [(3, [98]), (4, [100])])
      = some ([99], [(3, [98]), (4, [100])])
  ∧ decisionStep 0 0 ([], []) ([97], [(3, [98])]) ([99], [(3, [98]), (4, [100])])
      ≠ some ([97], [(3, [98])]) := by
  constructor
  · decide
  · decide

/-- C3 (amended): when not both percentages are negative and the dictionary is
nonempty, the Decision step returns the candidate with the strictly higher
compression percentage, and at a tie it returns the recursed candidate
(`percent_compression <= percent_compression_next` selects the recursed pair),
not the stop-here one. -/
theorem c3_decision_amended (pc pcNext : ℚ) (prev cur nxt : Str × Lookup)
    (hneg : ¬(pc < 0 ∧ pcNext < 0)) (hlk : cur.2 ≠ []) :
    (pcNext < pc → decisionStep pc pcNext prev cur nxt = some cur)
  ∧ (pc ≤ pcNext → decisionStep pc pcNext prev cur nxt = some nxt) := by
  unfold decisionStep
  rw [if_neg hneg, if_pos hlk]
  constructor
  · intro h; rw [if_neg (not_le.mpr h)]
  · intro h; rw [if_pos h]

/-- Witness for C3 (amended) at concrete inputs. -/
theorem c3_decision_amended_witness :
    decisionStep 1 1 ([], []) ([97], [(3, [98])]) ([99], [(3, [98]), (4, [100])])
      = some ([99], [(3, [98]), (4, [100])]) :=
  (c3_decision_amended 1 1 ([], []) ([97], [(3, [98])]) ([99], [(3, [98]), (4, [100])])
    (by norm_num) (by decide)).2 (by norm_num)

/-- C4 (counterexample): compressing `T = "ébcébcébc"` in character-prioritized
mode, the first substitution replaces the extended chunk `"ébc"` by the first
private symbol and produces the 8-character artifact; the percentage the code
computes for that step is `percentage_change(0, 12, 8) = 100/3` — the artifact's
character count against the original's BYTE length 12 — whereas comparing
character count against character count (9) as the claim states gives `100/9`. -/
theorem c4_metric_counterexample :
    extendLoop [233, 98, 99, 233, 98, 99, 233, 98, 99] 0 11 2
        ((gen_hash_table [233, 98, 99, 233, 98, 99, 233, 98, 99] 2
          (slice [233, 98, 99, 233, 98, 99, 233, 98, 99] 0 2)).filter (fun i => i != 0))
        (slice [233, 98, 99, 233, 98, 99, 233, 98, 99] 0 2) 0 = [233, 98, 99]
  ∧ replaceAll [233, 98, 99] [(keyCode 1 0).toNat] [233, 98, 99, 233, 98, 99, 233, 98, 99]
      = [1114111, 1114111, 1114111]
  ∧ gen_output [1114111, 1114111, 1114111] (dictInsert [] (keyCode 1 0).toNat [233, 98, 99])
      = [1114111, 233, 98, 99, 0, 1114111, 1114111, 1114111]
  ∧ stepPercent 1 (byteLen [233, 98, 99, 233, 98, 99, 233, 98, 99])
      [1114111, 233, 98, 99, 0, 1114111, 1114111, 1114111] = 100 / 3
  ∧ percentage_change 0 (charLen [233, 98, 99, 233, 98, 99, 233, 98, 99])
      (charLen [1114111, 233, 98, 99, 0, 1114111, 1114111, 1114111]) = 100 / 9
  ∧ (100 / 3 : ℚ) ≠ 100 / 9 := by
  refine ⟨rfl, rfl, rfl, ?_, ?_, by norm_num⟩
  · show percentage_change 0 ((12 : Nat) : ℚ)
      (stepOutputSize 1 [1114111, 233, 98, 99, 0, 1114111, 1114111, 1114111]) = 100 / 3
    norm_num [percentage_change, stepOutputSize, charLen]
  · show percentage_change 0 ((9 : Nat) : ℚ) ((8 : Nat) : ℚ) = 100 / 9
    norm_num [percentage_change]

/-- C4 (amended): the per-step percentage's artifact side does follow the mode
(encoded byte length in mode 0, character count in mode 1), but its original
side is the original input's byte length in BOTH modes; it agrees with the
claimed character-against-character comparison only when the input's character
count equals its byte length (pure-ASCII input). -/
theorem c4_step_metric_amended (T out : Str) :
    stepPercent 0 (byteLen T) out = percentage_change 0 (byteLen T) (byteLen out)
  ∧ stepPercent 1 (byteLen T) out = percentage_change 0 (byteLen T) (charLen out)
  ∧ (charLen T = byteLen T →
      stepPercent 1 (byteLen T) out = percentage_change 0 (charLen T) (charLen out)) := by
  refine ⟨rfl, rfl, ?_⟩
  intro h
  rw [h]
  exact rfl

/-- Witness for C4 (amended) at a pure-ASCII input. -/
theorem c4_step_metric_amended_witness :
    stepPercent 1 (byteLen [97, 98]) [99]
      = percentage_change 0 (charLen [97, 98]) (charLen [99]) :=
  (c4_step_metric_amended [97, 98] [99]).2.2 (by decide)

/-- C5 (counterexample): on `text = "abcqabcrabds"`, anchor 0, base chunk
`"ab"` with duplicates at 4 and 8, the code's extender accepts the extension to
`"abc"` although only one of the two duplicates survives it (because
`prev_same_count` starts at `0`, not at the base duplicate count), while the
rule stated by the claim (previous count = base count 2) stops at the base
chunk `"ab"`; the substituted chunks differ. -/
theorem c5_first_extension_counterexample :
    (gen_hash_table [97, 98, 99, 113, 97, 98, 99, 114, 97, 98, 100, 115] 2
        (slice [97, 98, 99, 113, 97, 98, 99, 114, 97, 98, 100, 115] 0 2)).filter
        (fun i => i != 0) = [4, 8]
  ∧ extendLoop [97, 98, 99, 113, 97, 98, 99, 114, 97, 98, 100, 115] 0 14 2 [4, 8]
      [97, 98] 0 = [97, 98, 99]
  ∧ extendChunkClaimed [97, 98, 99, 113, 97, 98, 99, 114, 97, 98, 100, 115] 0 14 2 [4, 8]
      [97, 98] = [97, 98]
  ∧ ([97, 98, 99] : Str) ≠ [97, 98] :=
  ⟨rfl, rfl, rfl, by decide⟩

/-- C5 (amended): the extender grows the chunk one character per iteration,
keeping at each new length only the duplicate offsets whose slice of that
length equals the anchor's; because `prev_same_count` starts at `0`, the FIRST
extension is accepted whenever at least one duplicate survives (even if fewer
than at the base length), and afterwards the loop continues exactly while the
(non-increasing) survivor count stays equal and nonzero; the chunk substituted
is the last accepted one.  Declaratively: if no duplicate survives the first
extension the base chunk is returned; otherwise the anchor's slice at the
largest length `M` whose survivor count still equals the count at length
`L + 1` is returned. -/
theorem c5_extend_amended (text : Str) (ci L M fuel : Nat) (dups0 : List Nat) :
    (1 ≤ fuel → (survivors text ci dups0 (L + 1)).length = 0 →
      extendLoop text ci fuel L dups0 (slice text ci L) 0 = slice text ci L)
  ∧ (L < M →
      (∀ n, L < n → n ≤ M →
        (survivors text ci dups0 n).length = (survivors text ci dups0 (L + 1)).length) →
      (survivors text ci dups0 (M + 1)).length < (survivors text ci dups0 (L + 1)).length →
      M + 1 ≤ L + fuel →
      extendLoop text ci fuel L dups0 (slice text ci L) 0 = slice text ci M) := by
  have hsf : stepFilter text ci L dups0 = survivors text ci dups0 (L + 1) := rfl
  constructor
  · intro hfuel hzero
    obtain ⟨fuel2, rfl⟩ : ∃ k, fuel = k + 1 := ⟨fuel - 1, by omega⟩
    have hnil : stepFilter text ci L dups0 = [] := by
      rw [hsf]; exact List.length_eq_zero.mp hzero
    have hnc : ¬(0 ≤ (stepFilter text ci L dups0).length ∧
        stepFilter text ci L dups0 ≠ []) := by
      rintro ⟨-, h2⟩; exact h2 hnil
    rw [extendLoop_succ, if_neg hnc]
  · intro hM hstreak hstop hfuel
    obtain ⟨fuel2, rfl⟩ : ∃ k, fuel = k + 1 := ⟨fuel - 1, by omega⟩
    have hpos : 0 < (survivors text ci dups0 (L + 1)).length := by omega
    have hc : (0 ≤ (stepFilter text ci L dups0).length ∧
        stepFilter text ci L dups0 ≠ []) := by
      refine ⟨Nat.zero_le _, ?_⟩
      rw [hsf]
      exact List.length_pos.mp hpos
    rw [extendLoop_succ, if_pos hc, hsf]
    exact extendLoop_surv_aux text ci L M dups0 hstreak hstop fuel2 (L + 1)
      (by omega) (by omega) (by omega)

/-- Witness for C5 (amended): both branches at concrete inputs — the streak
case on `"abcqabcrabds"` (extends to length 3) and the no-survivor case on
`"abxaby"` (stays at the base chunk). -/
theorem c5_extend_amended_witness :
    extendLoop [97, 98, 99, 113, 97, 98, 99, 114, 97, 98, 100, 115] 0 14 2 [4, 8]
      [97, 98] 0 = [97, 98, 99]
  ∧ extendLoop [97, 98, 120, 97, 98, 121] 0 8 2 [3] [97, 98] 0 = [97, 98] := by
  constructor
  · have h := (c5_extend_amended [97, 98, 99, 113, 97, 98, 99, 114, 97, 98, 100, 115]
      0 2 3 14 [4, 8]).2 (by omega)
      (by intro n h1 h2; have hn : n = 3 := (by omega); subst hn; rfl)
      (by decide) (by omega)
    exact h
  · have h := (c5_extend_amended [97, 98, 120, 97, 98, 121] 0 2 0 8 [3]).1
      (by omega) (by decide)
    exact h

/-- C6: symbol allocation is a deterministic function of the dictionary size:
the key's code point is `3 + count` in byte-prioritized mode (forward from the
low reserved region, one past the `chr(2)` sentinel) and `1114111 - count` in
character-prioritized mode (backward from the maximum code point), and in
either mode distinct counts give distinct code points, so all symbols of one
run are pairwise distinct. -/
theorem c6_key_allocation (m c c2 : Nat) :
    keyCode 0 c = 3 + (c : Int)
  ∧ keyCode 1 c = 1114111 - (c : Int)
  ∧ (c ≠ c2 → keyCode m c ≠ keyCode m c2) := by
  refine ⟨?_, ?_, ?_⟩
  · simp [keyCode, lookupKeyPrefixes]
  · simp [keyCode, lookupKeyPrefixes]
  · intro hne
    simp only [keyCode, lookupKeyPrefixes]
    split_ifs <;> omega

/-- Witness for C6 at concrete counts. -/
theorem c6_key_allocation_witness : keyCode 1 0 ≠ keyCode 1 1 :=
  (c6_key_allocation 1 0 1).2.2 (by decide)

/-- C7 (counterexample): for the input `"ab\x00cd"`, which contains the
reserved terminator `chr(0)`, compression does not reject — it succeeds and
returns an artifact (here the input itself, since nothing is substitutable). -/
theorem c7_no_rejection_counterexample :
    ([97, 98, 0, 99, 100] : Str).contains textDelimeter = true
  ∧ compressOp [97, 98, 0, 99, 100] 0 = Except.ok [97, 98, 0, 99, 100] :=
  ⟨rfl, rfl⟩

/-- C7 (amended): compression accepts input containing the reserved terminator
without any error and produces an artifact; the artifact is silently corrupt:
decoding it yields `"cd"` instead of the original `"ab\x00cd"` (everything up
to the first terminator is consumed as a bogus dictionary section). -/
theorem c7_silent_corruption_amended :
    ([97, 98, 0, 99, 100] : Str).contains textDelimeter = true
  ∧ compressOp [97, 98, 0, 99, 100] 0 = Except.ok [97, 98, 0, 99, 100]
  ∧ decodeOp [97, 98, 0, 99, 100] = Except.ok [99, 100]
  ∧ ([99, 100] : Str) ≠ [97, 98, 0, 99, 100] :=
  ⟨rfl, rfl, rfl, by decide⟩

/-- C8 (counterexample): the artifact of `"abcabcabc"` (character mode) with
its terminator deleted is malformed, yet decoding it surfaces no failure: it
returns `ok ""` — the whole artifact is consumed as a dictionary section —
while the intact artifact decodes to `"abcabcabc"`. -/
theorem c8_missing_terminator_counterexample :
    decodeOp [1114111, 97, 98, 99, 0, 1114111, 1114111, 1114111]
      = Except.ok [97, 98, 99, 97, 98, 99, 97, 98, 99]
  ∧ decodeOp [1114111, 97, 98, 99, 1114111, 1114111, 1114111] = Except.ok []
  ∧ ([] : Str) ≠ [97, 98, 99, 97, 98, 99, 97, 98, 99] :=
  ⟨rfl, rfl, by decide⟩

/-- C8 (amended): decoding does not detect malformed artifacts in general: a
missing terminator silently yields `ok ""`; a body symbol with no matching
dictionary entry is silently left verbatim in the output; only a truncated
(empty) dictionary entry in character mode raises an error (`IndexError` from
`x[0]`). -/
theorem c8_malformed_amended :
    decodeOp [1114111, 97, 98, 99, 1114111, 1114111, 1114111] = Except.ok []
  ∧ decodeOp [1114111, 97, 98, 0, 1114111, 1114110] = Except.ok [97, 98, 1114110]
  ∧ decodeOp [1, 0, 97] = Except.error Err.indexError :=
  ⟨rfl, rfl, rfl⟩

/-- C9 (counterexample): on the empty input, compression fails with the
`ZeroDivisionError` raised at the lookup-percentage computation (line 198,
dividing by the artifact's size, which is zero) — a different computation from
the `percentage_change` division by the original size that the claim names;
`percentage_change` is never reached. -/
theorem c9_error_location_counterexample :
    compressOp [] 0 = Except.error Err.divZeroLookupPct
  ∧ Err.divZeroLookupPct ≠ Err.divZeroPctChange :=
  ⟨rfl, by decide⟩

/-- C9 (amended): for the empty input, compress fails with a division-by-zero
error rather than producing an empty artifact, but the error arises first at
the lookup-percentage computation (output size zero, line 198), before
`percentage_change` is reached; for every non-empty input the original byte
and character sizes are positive, so the `percentage_change` divisions at
lines 201-202 are well-defined. -/
theorem c9_empty_input_division_amended :
    compressOp [] 0 = Except.error Err.divZeroLookupPct
  ∧ compressOp [] 1 = Except.error Err.divZeroLookupPct
  ∧ ∀ T : Str, T ≠ [] → 0 < byteLen T ∧ 0 < charLen T := by
  refine ⟨rfl, rfl, ?_⟩
  intro T hT
  match T with
  | [] => exact absurd rfl hT
  | c :: cs =>
    constructor
    · have h1 : 1 ≤ utf8Len c := by unfold utf8Len; split_ifs <;> omega
      simp only [byteLen, List.map_cons, List.sum_cons]
      omega
    · simp [charLen]

/-- Witness for C9 (amended) at a concrete non-empty input. -/
theorem c9_empty_input_division_amended_witness :
    0 < byteLen [97] ∧ 0 < charLen [97] :=
  c9_empty_input_division_amended.2.2 [97] (by decide)

/-- C10: `uncompress` raises `ValueError` for every path whose extension is
not `.llc`, independently of the file contents (the check precedes the read),
and proceeds to decode the contents for every `.llc` path; moreover the
accepted paths are characterized as those whose basename is `s ++ ".llc"` for
a stem `s` containing at least one character that is not a dot (Python's
`splitext` yields no extension for names like `".llc"`). -/
theorem c10_llc_extension_guard (path c1 c2 : Str) :
    (splitextExt (basenameOf path) ≠ llcExt →
      uncompressOp path c1 = Except.error Err.valueErrorNotLlc
        ∧ uncompressOp path c1 = uncompressOp path c2)
  ∧ (splitextExt (basenameOf path) = llcExt → uncompressOp path c1 = decodeOp c1)
  ∧ (splitextExt (basenameOf path) = llcExt ↔
      ∃ s : Str, basenameOf path = s ++ llcExt ∧ s.any (fun c => c != 46) = true) := by
  refine ⟨?_, ?_, ?_⟩
  · intro h
    have e1 : uncompressOp path c1 = Except.error Err.valueErrorNotLlc := by
      unfold uncompressOp
      rw [if_pos h]
    have e2 : uncompressOp path c2 = Except.error Err.valueErrorNotLlc := by
      unfold uncompressOp
      rw [if_pos h]
    exact ⟨e1, e1.trans e2.symm⟩
  · intro h
    unfold uncompressOp
    rw [if_neg (fun hn => hn h)]
  · constructor
    · intro h
      unfold splitextExt at h
      cases hE : extRev (basenameOf path).reverse with
      | none =>
        rw [hE] at h
        simp [llcExt] at h
      | some ep =>
        obtain ⟨e, p⟩ := ep
        rw [hE] at h
        dsimp only at h
        by_cases hA : p.any (fun c => c != 46) = true
        · rw [if_pos hA] at h
          refine ⟨p.reverse, ?_, ?_⟩
          · have hr := extRev_eq_append hE
            have hb : basenameOf path = p.reverse ++ e.reverse := by
              have h2 := congrArg List.reverse hr
              simpa using h2
            rw [hb, h]
          · rw [any_reverse_eq]
            exact hA
        · rw [if_neg hA] at h
          simp [llcExt] at h
    · rintro ⟨s, hb, hany⟩
      have hrev : (basenameOf path).reverse = 99 :: 108 :: 108 :: 46 :: s.reverse := by
        rw [hb, List.reverse_append]
        rfl
      have hA2 : (s.reverse.any (fun c => c != 46)) = true := by
        rw [any_reverse_eq]
        exact hany
      unfold splitextExt
      rw [hrev]
      rw [show extRev (99 :: 108 :: 108 :: 46 :: s.reverse)
          = some ([99, 108, 108, 46], s.reverse) from rfl]
      dsimp only
      rw [if_pos hA2]
      rfl

/-- Witness for C10 at the concrete paths `"a.txt"` (rejected) and `"in.llc"`
(accepted). -/
theorem c10_llc_extension_guard_witness :
    uncompressOp [97, 46, 116, 120, 116] [97] = Except.error Err.valueErrorNotLlc
  ∧ uncompressOp [105, 110, 46, 108, 108, 99] [97] = decodeOp [97] := by
  constructor
  · exact ((c10_llc_extension_guard [97, 46, 116, 120, 116] [97] [98]).1 (by decide)).1
  · exact (c10_llc_extension_guard [105, 110, 46, 108, 108, 99] [97] [98]).2.1 (by decide)

end LLC
